import Mathlib

/-!
Verification of the ruledxml rule-classification and execution engine.

This file shallowly embeds the relevant parts of `ruledxml/core.py` and
`ruledxml/xml.py` in Lean and settles the frozen claims about them.
Python exceptions are modelled with an explicit error type and `Except`;
XML documents are modelled as an inductive element tree.  Each definition
carries a comment naming the source function (and, where relevant, line)
it embeds.
-/

namespace RuledXml

/-- Errors raised by the embedded code.  Each constructor corresponds to one
raise site (or one dynamic failure mode) in the source:
* `invalidRuleDestination` — `exceptions.InvalidRuleDestination`, core.py:217;
* `tooManyRuleDestinations` — `exceptions.TooManyRuleDestinations`, core.py:224;
* `foreachNoPairs` — `exceptions.InvalidRuleForeach`, core.py:231;
* `foreachPairArity` — `exceptions.InvalidRuleForeach`, core.py:236;
* `foreachManyDests` — `exceptions.InvalidRuleForeach`, core.py:242;
* `foreachNesting` — `exceptions.InvalidRuleForeach`, core.py:252, carrying
  the outer and inner base named by the message;
* `unknownNamespace` / `unknownAttrNamespace` — `exceptions.InvalidPathException`,
  core.py:516 and core.py:525, carrying the prefix and the path;
* `invalidPath` — other `exceptions.InvalidPathException` raises;
* `assertionError` — a failing Python `assert`;
* `valueError` — a failing tuple unpacking (`ValueError`);
* `indexError` — an out-of-range subscript (`IndexError`);
* `typeErrorCall` — a call whose argument list does not match the callee's
  signature (`TypeError`), carrying the name of the callee;
* `nonTermination` — the `while` loop of `classify_rules.traverse`
  (core.py:400-410) looping forever because no node matches. -/
inductive PyErr where
  | invalidRuleDestination (rule : String)
  | tooManyRuleDestinations (rule : String) (n : Nat)
  | foreachNoPairs (rule : String)
  | foreachPairArity (rule : String) (n : Nat)
  | foreachManyDests (rule : String) (n : Nat)
  | foreachNesting (outer : String) (inner : String)
  | unknownNamespace (ns : String) (path : String)
  | unknownAttrNamespace (ns : String) (path : String)
  | invalidPath (msg : String)
  | assertionError (msg : String)
  | valueError
  | indexError
  | typeErrorCall (callee : String)
  | nonTermination
deriving DecidableEq, Repr

/-! ## String primitives

The embedded code manipulates paths with Python string operations
(`split`, `startswith`, `strip`, membership).  They are modelled over the
character list of a `String` so that every definition evaluates by kernel
reduction on concrete inputs. -/

/-- Python `s.split(c)` for a one-character separator: splits on every
occurrence, keeping empty pieces (so `''.split('/') == ['']`). -/
def splitChar (c : Char) : List Char → List (List Char)
  | [] => [[]]
  | x :: xs =>
    let r := splitChar c xs
    if x = c then [] :: r
    else
      match r with
      | h :: t => (x :: h) :: t
      | [] => [[x]]

/-- Python `s.split(c)` returning strings. -/
def pySplit (s : String) (c : Char) : List String :=
  (splitChar c s.data).map String.mk

/-- Python `s.startswith(pre)`. -/
def pyStartsWith (s pre : String) : Bool :=
  pre.data.isPrefixOf s.data

/-- Python `s.endswith(suf)`. -/
def pyEndsWith (s suf : String) : Bool :=
  suf.data.isSuffixOf s.data

/-- Python `c in s` for a character. -/
def pyContainsChar (s : String) (c : Char) : Bool :=
  s.data.contains c

/-- Python `s.count(c)` for a character. -/
def pyCountChar (s : String) (c : Char) : Nat :=
  (s.data.filter (fun x => x = c)).length

/-- Python `sep.join(parts)` (character-list based). -/
def pyJoin (sep : String) (parts : List String) : String :=
  match parts with
  | [] => ""
  | p :: ps => ps.foldl (fun acc q => acc ++ sep ++ q) p

/-- Byte-wise (code-point-wise) strict comparison of characters, as Python
compares strings. -/
def charLtB (a b : Char) : Bool := a.val < b.val

/-- Lexicographic `≤` on character lists (Python string comparison). -/
def lexLeB : List Char → List Char → Bool
  | [], _ => true
  | _ :: _, [] => false
  | a :: as, b :: bs => if a = b then lexLeB as bs else charLtB a b

/-- Python `s <= t` on strings. -/
def strLeB (s t : String) : Bool := lexLeB s.data t.data

/-! ## Rule metadata, as seen by the validator

`validate_rules` (core.py:205-257) receives a dict mapping rule names to
functions carrying a `metadata` attribute.  The decorators building that
attribute are not part of the sources; following the specification (§3,
§9: "metadata as a fixed-shape struct (source list, destination,
foreach-pair list, optional order)") the metadata is modelled as a record.
The validator inspects the number of components of each foreach pair, so at
this stage a pair is a `List String` of its components. -/

/-- Modelled from the spec: the fixed-shape metadata record attached to a rule
by the (external) decorator collaborator — source list, destination list
(`metadata['dst']['dests']`), optional integer order, and the optional
foreach-pair list (`metadata['each']`), with each pair kept as the list of its
components so that arity violations are representable. -/
structure VMeta where
  src : List String := []
  dests : List String := []
  order : Option Int := none
  each : Option (List (List String)) := none
deriving DecidableEq, Repr

deriving instance DecidableEq for Except

/-- A named rule as the validator sees it; `metadata = none` models a function
without a `metadata` attribute (core.py:214 `hasattr`). -/
structure VRule where
  name : String
  metadata : Option VMeta
deriving DecidableEq, Repr

/-- The inner loop `for base_src, base_dst in rule.metadata['each']`
(core.py:248-254): `prev` is the previous pair's source base; unpacking a pair
with a component count other than 2 raises `ValueError`; a pair whose source
base does not `startswith` the previous one raises the nesting error naming
both bases. -/
def nestingLoop (rule : String) (prev : Option String) :
    List (List String) → Except PyErr Unit
  | [] => Except.ok ()
  | p :: ps =>
    match p with
    | [baseSrc, _baseDst] =>
      match prev with
      | some pv =>
        if ¬ pyStartsWith baseSrc pv then
          Except.error (PyErr.foreachNesting pv baseSrc)
        else nestingLoop rule (some baseSrc) ps
      | none => nestingLoop rule (some baseSrc) ps
    | _ => Except.error PyErr.valueError

/-- `for source in rule.metadata.get('src', [])` (core.py:246): the nesting
loop is executed once per declared source path, with `prev` reset each time;
with no sources it never runs. -/
def perSource (srcs : List String) (check : Except PyErr Unit) : Except PyErr Unit :=
  match srcs with
  | [] => Except.ok ()
  | _ :: rest =>
    match check with
    | Except.ok () => perSource rest check
    | Except.error e => Except.error e

/-- Validation of a single rule, embedding the body of the loop of
`validate_rules` (core.py:212-257).  Note two quirks kept from the source:
the pair-arity check at core.py:233-236 inspects only `metadata['each'][0]`,
and the destination-count check at core.py:238-242 reads the key `'dsts'`,
which is never present (the destinations are stored under `'dests'`), so that
check can never fire. -/
def validateRule (r : VRule) : Except PyErr Unit :=
  match r.metadata with
  | none => Except.error (PyErr.invalidRuleDestination r.name)
  | some md =>
    if md.dests.length ≠ 1 then
      Except.error (PyErr.tooManyRuleDestinations r.name md.dests.length)
    else
      match md.each with
      | none => Except.ok ()
      | some each =>
        if each.length = 0 then Except.error (PyErr.foreachNoPairs r.name)
        else
          let eachArgLen := (each.headD []).length
          if eachArgLen ≠ 2 then
            Except.error (PyErr.foreachPairArity r.name eachArgLen)
          else
            -- core.py:238-242: `each_dst_len` is always 0 ('dsts' is never a
            -- key), so the `> 1` check never raises.
            perSource md.src (nestingLoop r.name none each)

/-- `validate_rules` (core.py:205-257): every rule is checked; the first
violation aborts.  The rules dict is modelled as a list in insertion order. -/
def validate_rules (rules : List VRule) : Except PyErr Unit :=
  match rules with
  | [] => Except.ok ()
  | r :: rest =>
    match validateRule r with
    | Except.ok () => validate_rules rest
    | Except.error e => Except.error e

/-- The path segments of an XPath-like string: split on `/`, dropping empty
segments (used to state what a *structural* path-prefix is). -/
def pathSegments (p : String) : List String :=
  (pySplit p '/').filter (fun s => s ≠ "")

/-- `p` is a structural path-prefix of `q`: the segment list of `p` is a
prefix of the segment list of `q` (this is the notion the claims use; the
source instead compares raw strings with `startswith`). -/
def structPref (p q : String) : Bool :=
  (pathSegments p).isPrefixOf (pathSegments q)

/-- The first adjacent foreach pair violating the `startswith` check of
core.py:249, together with the two bases the raised error names. -/
def firstViolation (prev : Option String) : List (List String) → Option (String × String)
  | [] => none
  | p :: ps =>
    match p with
    | [baseSrc, _baseDst] =>
      match prev with
      | some pv =>
        if ¬ pyStartsWith baseSrc pv then some (pv, baseSrc)
        else firstViolation (some baseSrc) ps
      | none => firstViolation (some baseSrc) ps
    | _ => none

/-- Whether a validation outcome is one of the two foreach-arity errors. -/
def isArityError : Except PyErr Unit → Bool
  | Except.error (PyErr.foreachNoPairs _) => true
  | Except.error (PyErr.foreachPairArity _ _) => true
  | _ => false

/-- The concrete rule of the C4 counterexample: one source, one destination,
foreach chain `('/a','/x'), ('/ab','/y')`. -/
def c4rule : VRule :=
  ⟨"ruleNest", some ⟨["/s"], ["/d"], none, some [["/a", "/x"], ["/ab", "/y"]]⟩⟩

/-- The concrete rule of the C4 witness: foreach chain
`('/a','/x'), ('/a/b','/y')`. -/
def c4wMeta : VMeta := ⟨["/s"], ["/d"], none, some [["/a", "/x"], ["/a/b", "/y"]]⟩

/-- The concrete rule of the C5 counterexample: pair list `[('a','b'), ('c',)]`,
no sources. -/
def c5rule : VRule := ⟨"ruleArity", some ⟨[], ["/d"], none, some [["a", "b"], ["c"]]⟩⟩

/-- The concrete metadata of the C5 witness: an empty foreach pair list. -/
def c5wMeta : VMeta := ⟨[], ["/d"], none, some []⟩

theorem perSource_ok (srcs : List String) : perSource srcs (Except.ok ()) = Except.ok () := by
  induction srcs with
  | nil => rfl
  | cons s rest ih => simpa [perSource] using ih

theorem perSource_err (srcs : List String) (e : PyErr) (h : srcs ≠ []) :
    perSource srcs (Except.error e) = Except.error e := by
  cases srcs with
  | nil => exact absurd rfl h
  | cons s rest => rfl

theorem nestingLoop_eq_firstViolation (rule : String) (ps : List (List String))
    (prev : Option String) (h : ∀ p ∈ ps, p.length = 2) :
    nestingLoop rule prev ps =
      (match firstViolation prev ps with
       | none => Except.ok ()
       | some (a, b) => Except.error (PyErr.foreachNesting a b)) := by
  induction ps generalizing prev with
  | nil => rfl
  | cons p ps ih =>
    obtain ⟨a, b, rfl⟩ := List.length_eq_two.mp (h p (List.mem_cons_self p ps))
    have hrest : ∀ q ∈ ps, q.length = 2 := fun q hq => h q (List.mem_cons_of_mem _ hq)
    cases prev with
    | none => simpa [nestingLoop, firstViolation] using ih (some a) hrest
    | some pv =>
      by_cases hsw : pyStartsWith a pv = true
      · simpa [nestingLoop, firstViolation, hsw] using ih (some a) hrest
      · simp [nestingLoop, firstViolation, hsw]

theorem nestingLoop_not_arity (rule : String) (ps : List (List String)) (prev : Option String) :
    isArityError (nestingLoop rule prev ps) = false := by
  induction ps generalizing prev with
  | nil => rfl
  | cons p ps ih =>
    match p with
    | [] => rfl
    | [a] => rfl
    | [a, b] =>
      cases prev with
      | none => simpa [nestingLoop] using ih (some a)
      | some pv =>
        by_cases hsw : pyStartsWith a pv = true
        · simpa [nestingLoop, hsw] using ih (some a)
        · simp [nestingLoop, hsw, isArityError]
    | a :: b :: c :: t => rfl

theorem perSource_not_arity (srcs : List String) (e : Except PyErr Unit)
    (h : isArityError e = false) : isArityError (perSource srcs e) = false := by
  induction srcs with
  | nil => rfl
  | cons s rest ih =>
    match e, h with
    | Except.ok (), _ => simpa [perSource] using ih
    | Except.error err, h => simpa [perSource] using h

/-- With the earlier checks passed, validating a single foreach rule reduces
to the per-source nesting loop. -/
theorem validateRule_foreach (name : String) (md : VMeta) (p : List String)
    (rest : List (List String)) (hdst : md.dests.length = 1)
    (heach : md.each = some (p :: rest)) (hp : p.length = 2) :
    validateRule ⟨name, some md⟩ = perSource md.src (nestingLoop name none (p :: rest)) := by
  simp [validateRule, heach, hdst, hp]

/-- Claim C4, counterexample: for the rule `ruleNest` with one source, one
destination and the foreach chain `('/a','/x'), ('/ab','/y')`, the outer
source base `/a` is not a structural path-prefix of the inner source base
`/ab`, yet validation succeeds (core.py:249 compares raw strings with
`startswith`, and `'/ab'.startswith('/a')` holds).  The claim, as stated,
predicts a foreach-nesting error here. -/
theorem ruledxml_C4_counterexample :
    validate_rules [c4rule] = Except.ok ()
    ∧ structPref "/a" "/ab" = false := by
  constructor
  · rfl
  · decide

/-- Claim C4, amended: for a rule that reaches the nesting check (metadata
present, exactly one destination, a nonempty pair list whose pairs all have
two components), validation raises the foreach-nesting error — naming the
first offending outer and inner source bases — exactly when the rule declares
at least one source path and some outer pair's source base is not a *string*
prefix of the next inner pair's source base, checked pairwise in declaration
order; otherwise validation succeeds. -/
theorem ruledxml_C4_amended (name : String) (md : VMeta) (p : List String)
    (rest : List (List String)) (hdst : md.dests.length = 1)
    (heach : md.each = some (p :: rest)) (hlen : ∀ q ∈ p :: rest, q.length = 2) :
    (∀ a b, validate_rules [⟨name, some md⟩] = Except.error (PyErr.foreachNesting a b) ↔
        (md.src ≠ [] ∧ firstViolation none (p :: rest) = some (a, b)))
    ∧ (validate_rules [⟨name, some md⟩] = Except.ok () ↔
        (md.src = [] ∨ firstViolation none (p :: rest) = none)) := by
  have hp : p.length = 2 := hlen p (List.mem_cons_self p rest)
  have hv : validateRule ⟨name, some md⟩ =
      perSource md.src (nestingLoop name none (p :: rest)) :=
    validateRule_foreach name md p rest hdst heach hp
  have hloop := nestingLoop_eq_firstViolation name (p :: rest) none hlen
  have hval : validate_rules [⟨name, some md⟩] =
      perSource md.src (nestingLoop name none (p :: rest)) := by
    show (match validateRule ⟨name, some md⟩ with
          | Except.ok () => validate_rules []
          | Except.error e => Except.error e) =
        perSource md.src (nestingLoop name none (p :: rest))
    rw [hv]
    cases hps : perSource md.src (nestingLoop name none (p :: rest)) with
    | ok u => cases u; rfl
    | error e => rfl
  rw [hval, hloop]
  cases hsrc : md.src with
  | nil =>
    cases hfv : firstViolation none (p :: rest) with
    | none => simp [perSource]
    | some ab => cases ab with | mk a0 b0 => simp [perSource]
  | cons s ss =>
    cases hfv : firstViolation none (p :: rest) with
    | none =>
      rw [perSource_ok]
      constructor
      · intro a b
        constructor
        · intro h; exact absurd h (by simp)
        · rintro ⟨-, h⟩; exact absurd h (by simp)
      · simp
    | some ab =>
      cases ab with
      | mk a0 b0 =>
        rw [perSource_err _ _ (by simp)]
        constructor
        · intro a b
          constructor
          · intro h
            refine ⟨by simp, ?_⟩
            have := h.symm
            simp only [Except.error.injEq, PyErr.foreachNesting.injEq] at this
            simp [this.1, this.2]
          · rintro ⟨-, h⟩
            simp only [Option.some.injEq, Prod.mk.injEq] at h
            simp [h.1, h.2]
        · simp

/-- Witness for `ruledxml_C4_amended`: a foreach rule with a source, one
destination and chain `('/a','/x'), ('/a/b','/y')` (a string prefix) passes
validation. -/
theorem ruledxml_C4_amended_witness :
    validate_rules [⟨"ruleW", some c4wMeta⟩] = Except.ok () :=
  ((ruledxml_C4_amended "ruleW" c4wMeta
      ["/a", "/x"] [["/a/b", "/y"]] (by decide) rfl (by decide)).2).mpr
    (Or.inr (by decide))

/-- Claim C5, counterexample: the rule `ruleArity` declares the foreach pair
list `[('a','b'), ('c',)]`, whose second pair has 1 component, yet validation
succeeds: core.py:233-236 inspects only `metadata['each'][0]`, and with no
declared sources the nesting loop (which would fail to unpack the 1-tuple)
never runs.  The claim, as stated, predicts a foreach-arity error. -/
theorem ruledxml_C5_counterexample :
    validate_rules [c5rule] = Except.ok ()
    ∧ (["c"] : List String).length ≠ 2 := by
  constructor
  · rfl
  · decide

/-- Claim C5, amended: for a rule with metadata and exactly one destination
that declares foreach pairs, validation raises the empty-pair-list arity error
exactly when the pair list is empty, and the pair-component arity error
exactly when the *first* pair has a component count other than 2 (later pairs
are not arity-checked); when the first pair has exactly 2 components, no
foreach-arity error is raised.  (The at-most-one-destination check of
core.py:238-242 reads a key that is never present and cannot fire.) -/
theorem ruledxml_C5_amended (name : String) (md : VMeta) (e : List (List String))
    (hdst : md.dests.length = 1) (heach : md.each = some e) :
    (validate_rules [⟨name, some md⟩] = Except.error (PyErr.foreachNoPairs name) ↔ e = [])
    ∧ (∀ p rest, e = p :: rest →
        (validate_rules [⟨name, some md⟩] =
            Except.error (PyErr.foreachPairArity name p.length) ↔ p.length ≠ 2))
    ∧ (∀ p rest, e = p :: rest → p.length = 2 →
        isArityError (validate_rules [⟨name, some md⟩]) = false) := by
  have hval : ∀ r : VRule, validate_rules [r] =
      (match validateRule r with
       | Except.ok () => Except.ok ()
       | Except.error err => Except.error err) := by
    intro r
    show (match validateRule r with
          | Except.ok () => validate_rules []
          | Except.error err => Except.error err) = _
    cases validateRule r with
    | ok u => cases u; rfl
    | error err => rfl
  cases e with
  | nil =>
    have hv : validateRule ⟨name, some md⟩ = Except.error (PyErr.foreachNoPairs name) := by
      simp [validateRule, heach, hdst]
    refine ⟨by simp [hval, hv], ?_, ?_⟩
    · intro p rest h; exact absurd h (by simp)
    · intro p rest h; exact absurd h (by simp)
  | cons p rest =>
    by_cases hp : p.length = 2
    · have hv : validateRule ⟨name, some md⟩ =
          perSource md.src (nestingLoop name none (p :: rest)) :=
        validateRule_foreach name md p rest hdst heach hp
      have hna : isArityError (validate_rules [⟨name, some md⟩]) = false := by
        rw [hval, hv]
        have := perSource_not_arity md.src (nestingLoop name none (p :: rest))
          (nestingLoop_not_arity name (p :: rest) none)
        cases hres : perSource md.src (nestingLoop name none (p :: rest)) with
        | ok u => cases u; rfl
        | error err => rw [hres] at this; simpa using this
      refine ⟨?_, ?_, ?_⟩
      · constructor
        · intro h; rw [h] at hna; simp [isArityError] at hna
        · intro h; simp at h
      · intro q qrest hq
        obtain ⟨rfl, rfl⟩ : q = p ∧ qrest = rest := by
          constructor <;> [exact (List.cons.injEq .. ▸ hq).1.symm ▸ rfl;
            exact (List.cons.injEq .. ▸ hq).2.symm ▸ rfl]
        constructor
        · intro h; rw [h] at hna; simp [isArityError] at hna
        · intro h; exact absurd hp h
      · intro q qrest hq hq2; exact hna
    · have hv : validateRule ⟨name, some md⟩ =
          Except.error (PyErr.foreachPairArity name p.length) := by
        simp [validateRule, heach, hdst, hp]
      refine ⟨?_, ?_, ?_⟩
      · rw [hval, hv]; simp
      · intro q qrest hq
        obtain ⟨rfl, rfl⟩ : q = p ∧ qrest = rest := by
          constructor <;> [exact (List.cons.injEq .. ▸ hq).1.symm ▸ rfl;
            exact (List.cons.injEq .. ▸ hq).2.symm ▸ rfl]
        rw [hval, hv]; simp [hp]
      · intro q qrest hq hq2
        obtain rfl : q = p := (List.cons.injEq .. ▸ hq).1.symm ▸ rfl
        exact absurd hq2 hp

/-- Witness for `ruledxml_C5_amended`: a foreach rule with an empty pair list
raises the empty-pair-list arity error. -/
theorem ruledxml_C5_amended_witness :
    validate_rules [⟨"ruleE", some c5wMeta⟩] =
      Except.error (PyErr.foreachNoPairs "ruleE") :=
  ((ruledxml_C5_amended "ruleE" c5wMeta [] (by decide) rfl).1).mpr rfl

/-! ## Rule classification (core.py:260-456)

`classify_rules` receives the rules dict (modelled as a list in insertion
order).  After validation every foreach pair has exactly two components, so at
this stage a pair is a `String × String`.  The classifier never looks at a
rule's implementation, so it is omitted from `CRule`.  As with `VMeta`, the
metadata shape (single optional `order`) is modelled from the spec; note that
core.py:383 and core.py:417 read the key `'dorder'`, which the metadata does
not carry (the decorator stores `'order'`, the key read at core.py:349 for
basic rules), so those lookups always yield `None`. -/

/-- A rule as the classifier sees it. -/
structure CRule where
  name : String
  src : List String := []
  dests : List String := []
  order : Option Int := none
  each : Option (List (String × String)) := none
deriving DecidableEq, Repr

mutual

/-- A node of the classified program: a basic rule, a foreach rule leaf, or an
iteration node (the tagged dictionaries with `'class'` of
`'basicrule' | 'foreach-rule' | 'iteration'`).  Iteration nodes carry no
`dorder` key.  The children list is represented by the mutually defined
`PForest` (a plain list of nodes). -/
inductive PNode where
  | basic (name : String) (src : List String) (dst : List String) (dorder : Int)
  | leaf (name : String) (src : List String) (dst : List String) (dorder : Int)
  | iter (srcbase : String) (dstbase : String) (children : PForest)
deriving DecidableEq, Repr

/-- A list of program nodes (one sibling level of the classified program). -/
inductive PForest where
  | nil
  | cons (n : PNode) (f : PForest)
deriving DecidableEq, Repr

end

/-- View a `PForest` as a `List PNode`. -/
def PForest.toList : PForest → List PNode
  | PForest.nil => []
  | PForest.cons n f => n :: f.toList

/-- Build a `PForest` from a `List PNode`. -/
def PForest.ofList : List PNode → PForest
  | [] => PForest.nil
  | n :: ns => PForest.cons n (PForest.ofList ns)

mutual

/-- The number of nodes of a program tree (bounds the descent depth of the
forest walks below). -/
def pnodeSize : PNode → Nat
  | PNode.basic _ _ _ _ => 1
  | PNode.leaf _ _ _ _ => 1
  | PNode.iter _ _ cs => 1 + pforestSize cs

/-- The number of nodes of a forest. -/
def pforestSize : PForest → Nat
  | PForest.nil => 0
  | PForest.cons n f => pnodeSize n + pforestSize f

end

/-- The per-foreach-rule dict built at core.py:388-393 (`foreach`, `source`,
`destination`, `dorder`); `build_recursive_structure` reads only `foreach`. -/
structure FRec where
  foreach : List (String × String) := []
  source : List String := []
  destination : List String := []
  dorder : Int := 0
deriving DecidableEq, Repr

/-- core.py:295-300: the foreach base pairs are collected into a Python `set`
and listed.  A set is unordered; the first-occurrence order is chosen here.
The subsequent sort on the source base makes the choice immaterial whenever
the source bases are distinct. -/
def dedupKeepFirst (l : List (String × String)) : List (String × String) :=
  l.foldl (fun acc p => if p ∈ acc then acc else acc ++ [p]) []

/-- Stable insertion into a list sorted by the first component (Python's
stable `list.sort(key=lambda e: e[0])`, core.py:301). -/
def insSorted (x : String × String) : List (String × String) → List (String × String)
  | [] => [x]
  | y :: ys => if strLeB x.1 y.1 then x :: y :: ys else y :: insSorted x ys

/-- core.py:301: sort the collected bases by their source base. -/
def sortBases (l : List (String × String)) : List (String × String) :=
  l.foldr insSorted []

/-- core.py:305-323: insert one base pair into the forest — descend into the
children of the first node whose `srcbase` is a string prefix of the
candidate's source base (the loop breaks there); if no node matches at a
level, append a fresh childless iteration node at its end. -/
def insertBase (b : String × String) : PForest → PForest
  | PForest.nil => PForest.cons (PNode.iter b.1 b.2 PForest.nil) PForest.nil
  | PForest.cons (PNode.iter sb db cs) ts =>
    if pyStartsWith b.1 sb then PForest.cons (PNode.iter sb db (insertBase b cs)) ts
    else PForest.cons (PNode.iter sb db cs) (insertBase b ts)
  | PForest.cons t ts => PForest.cons t (insertBase b ts)

/-- The body of `build_recursive_structure` after the bases are collected. -/
def buildFromBases (bases : List (String × String)) : PForest :=
  (sortBases (dedupKeepFirst bases)).foldl (fun st b => insertBase b st) PForest.nil

/-- `build_recursive_structure` (core.py:260-325). -/
def build_recursive_structure (rules : List FRec) : PForest :=
  buildFromBases ((rules.map (fun r => r.foreach)).flatten)

/-- core.py:352: `if max_user_dorder is None or (user_dorder is not None and
user_dorder > max_user_dorder): max_user_dorder = user_dorder`. -/
def updMax (mx u : Option Int) : Option Int :=
  match mx, u with
  | none, v => v
  | some m, none => some m
  | some m, some x => if x > m then some x else some m

/-- The running maximum of explicit orders over the basic rules
(core.py:344-353); foreach rules are skipped by the `continue`. -/
def maxUser (mx : Option Int) : List CRule → Option Int
  | [] => mx
  | r :: rest =>
    if r.each.isSome then maxUser mx rest
    else maxUser (updMax mx r.order) rest

/-- An entry of `classified` before the missing orders are filled in
(core.py:355-363). -/
structure BRec where
  name : String
  src : List String
  dst : List String
  dorder : Option Int
deriving DecidableEq, Repr

/-- The basic-rule pass of core.py:344-363, keeping declaration order. -/
def toBasics (rules : List CRule) : List BRec :=
  rules.filterMap (fun r =>
    if r.each.isSome then none else some ⟨r.name, r.src, r.dests, r.order⟩)

/-- core.py:369-372: every rule whose order is still `None` receives the
incremented running maximum, in declaration order.  Returns the final
maximum as well, since core.py keeps using it for the foreach rules. -/
def autoAssign (m : Int) : List BRec → List PNode × Int
  | [] => ([], m)
  | b :: bs =>
    match b.dorder with
    | some o =>
      let (rest, m2) := autoAssign m bs
      (PNode.basic b.name b.src b.dst o :: rest, m2)
    | none =>
      let (rest, m2) := autoAssign (m + 1) bs
      (PNode.basic b.name b.src b.dst (m + 1) :: rest, m2)

/-- core.py:378-393: collect the foreach rules.  The order lookup at
core.py:383 reads the key `'dorder'`, which is never present, so every
foreach rule takes the auto-increment branch. -/
def collectForeach (m : Int) : List CRule → List FRec × Int
  | [] => ([], m)
  | r :: rest =>
    match r.each with
    | none => collectForeach m rest
    | some e =>
      let (frs, m2) := collectForeach (m + 1) rest
      (⟨e, r.src, r.dests, m + 1⟩ :: frs, m2)

/-- One scan of a forest level by `classify_rules.traverse` (core.py:400-410)
looking for a node whose `srcbase` equals the sought base: the first such node
receives the new leaf at the end of its children (the Python code returns the
mutable children list, which core.py:424 appends to). -/
def levelEqAttach (xpath : String) (lf : PNode) : PForest → Option PForest
  | PForest.nil => none
  | PForest.cons (PNode.iter sb db cs) ts =>
    if sb = xpath then
      some (PForest.cons (PNode.iter sb db (PForest.ofList (cs.toList ++ [lf]))) ts)
    else (levelEqAttach xpath lf ts).map (fun l => PForest.cons (PNode.iter sb db cs) l)
  | PForest.cons t ts => (levelEqAttach xpath lf ts).map (fun l => PForest.cons t l)

/-- Locate the *last* node of a level whose `srcbase` is a string prefix of
the sought base (core.py:409 keeps overwriting `current` without breaking),
returning the level split around it. -/
def splitLastMatch (xpath : String) :
    PForest → Option (List PNode × String × String × PForest × PForest)
  | PForest.nil => none
  | PForest.cons (PNode.iter sb db cs) ts =>
    match splitLastMatch xpath ts with
    | some (pre, a, b, c, post) => some (PNode.iter sb db cs :: pre, a, b, c, post)
    | none => if pyStartsWith xpath sb then some ([], sb, db, cs, ts) else none
  | PForest.cons t ts =>
    (splitLastMatch xpath ts).map (fun x => (t :: x.1, x.2.1, x.2.2.1, x.2.2.2.1, x.2.2.2.2))

/-- Append a list of nodes in front of a forest. -/
def consAll (pre : List PNode) (f : PForest) : PForest :=
  match pre with
  | [] => f
  | n :: ns => PForest.cons n (consAll ns f)

/-- `classify_rules.traverse` + the append at core.py:423-431: find the node
with the given source base (equality first, else descend into the last
prefix-matching node) and append the leaf to its children.  The fuel bounds
the descent depth; exhaustion, or a level with no match, corresponds to the
original `while` loop running forever. -/
def attachLeafFuel (xpath : String) (lf : PNode) : Nat → PForest → Option PForest
  | 0, _ => none
  | fuel + 1, forest =>
    match levelEqAttach xpath lf forest with
    | some f => some f
    | none =>
      match splitLastMatch xpath forest with
      | none => none
      | some (pre, sb, db, cs, post) =>
        (attachLeafFuel xpath lf fuel cs).map
          (fun cs2 => consAll pre (PForest.cons (PNode.iter sb db cs2) post))

/-- Attach a foreach-rule leaf under the iteration node of its most deeply
nested base.  A forest with `n` nodes is at most `n` levels deep, so the fuel
never runs out on a base present in the forest. -/
def attachLeaf (xpath : String) (lf : PNode) (forest : PForest) : Option PForest :=
  attachLeafFuel xpath lf (pforestSize forest + 1) forest

/-- core.py:413-431: attach every foreach rule as a leaf under the node of its
last declared base pair.  The order lookup at core.py:417 reads the absent key
`'dorder'`, so the auto-increment branch is always taken (a second time for
each foreach rule).  `metadata['each'][-1]` on an empty pair list is an
`IndexError`; a base absent from the forest makes the original loop run
forever (`nonTermination`). -/
def attachAll (m : Int) (forest : PForest) : List CRule → Except PyErr (PForest × Int)
  | [] => Except.ok (forest, m)
  | r :: rest =>
    match r.each with
    | none => attachAll m forest rest
    | some e =>
      match e.getLast? with
      | none => Except.error PyErr.indexError
      | some mostNested =>
        match attachLeaf mostNested.1 (PNode.leaf r.name r.src r.dests (m + 1)) forest with
        | none => Except.error PyErr.nonTermination
        | some forest2 => attachAll (m + 1) forest2 rest

/-- `classify_rules` (core.py:328-436). -/
def classify_rules (rules : List CRule) : Except PyErr (List PNode) :=
  let m0v := (maxUser none rules).getD 0
  let (classified, m1) := autoAssign m0v (toBasics rules)
  if ¬ rules.any (fun r => r.each.isSome) then Except.ok classified
  else
    let (foreachRules, m2) := collectForeach m1 rules
    match attachAll m2 (build_recursive_structure foreachRules) rules with
    | Except.error e => Except.error e
    | Except.ok (forest, _) => Except.ok (classified ++ forest.toList)

/-- The sort key of `reorder_rules` (core.py:450): `dorder` where present,
`float('inf')` (here `none`, ordered last) for iteration nodes. -/
def nodeKey : PNode → Option Int
  | PNode.basic _ _ _ d => some d
  | PNode.leaf _ _ _ d => some d
  | PNode.iter _ _ _ => none

/-- `≤` on sort keys, with `none` as positive infinity. -/
def keyLeB (a b : PNode) : Bool :=
  match nodeKey a, nodeKey b with
  | some x, some y => x ≤ y
  | some _, none => true
  | none, some _ => false
  | none, none => true

/-- Stable insertion for the sort of core.py:450 (Python's `list.sort` is
stable). -/
def insNode (x : PNode) : List PNode → List PNode
  | [] => [x]
  | y :: ys => if keyLeB x y then x :: y :: ys else y :: insNode x ys

/-- Stable sort of one sibling list by `dorder`. -/
def sortNodes (l : List PNode) : List PNode :=
  l.foldr insNode []

mutual

/-- The recursive part of `reorder_rules.sorting_traverse` (core.py:449-453).
The Python code sorts a sibling list in place and then recurses into each
node's children; sorting a level and rewriting its nodes' children commute,
so the children are rewritten first here. -/
def reorderNode : PNode → PNode
  | PNode.basic nm s d o => PNode.basic nm s d o
  | PNode.leaf nm s d o => PNode.leaf nm s d o
  | PNode.iter sb db cs =>
    PNode.iter sb db (PForest.ofList (sortNodes (reorderForest cs)))

/-- Children of an iteration node, reordered recursively. -/
def reorderForest : PForest → List PNode
  | PForest.nil => []
  | PForest.cons n f => reorderNode n :: reorderForest f

end

/-- `reorder_rules` (core.py:439-456). -/
def reorder_rules (prog : List PNode) : List PNode :=
  sortNodes (prog.map reorderNode)

/-- The classification pipeline of `apply_rules` (core.py:616-617): classify,
then reorder. -/
def ordered_rules (rules : List CRule) : Except PyErr (List PNode) :=
  (classify_rules rules).map reorder_rules

/-- The names of the nodes of a program level (iteration nodes shown by their
source base). -/
def progNames (prog : List PNode) : List String :=
  prog.map (fun n =>
    match n with
    | PNode.basic nm _ _ _ => nm
    | PNode.leaf nm _ _ _ => nm
    | PNode.iter sb _ _ => sb)

/-! ## Permutation enumeration

`List.permutations` does not evaluate by kernel reduction, so a small
enumerator is used to quantify over all declaration orders of a concrete
rule set. -/

/-- All ways to insert `a` into a list. -/
def insertEverywhere {α : Type} (a : α) : List α → List (List α)
  | [] => [[a]]
  | b :: bs => (a :: b :: bs) :: (insertEverywhere a bs).map (fun l => b :: l)

/-- All permutations of a list (each exactly once for distinct elements). -/
def allPerms {α : Type} : List α → List (List α)
  | [] => [[]]
  | a :: as => ((allPerms as).map (insertEverywhere a)).flatten

theorem mem_insertEverywhere_self {α : Type} [DecidableEq α] (a : α) :
    ∀ l : List α, a ∈ l → l ∈ insertEverywhere a (l.erase a) := by
  intro l
  induction l with
  | nil => intro h; exact absurd h (List.not_mem_nil a)
  | cons b bs ih =>
    intro h
    by_cases hb : b = a
    · subst hb
      rw [List.erase_cons_head]
      cases bs <;> simp [insertEverywhere]
    · have ha : a ∈ bs := by
        rcases List.mem_cons.mp h with h1 | h1
        · exact absurd h1.symm hb
        · exact h1
      have herase : (b :: bs).erase a = b :: bs.erase a := by
        rw [List.erase_cons_tail]
        simp [hb]
      rw [herase]
      show b :: bs ∈ (a :: b :: bs.erase a) ::
        (insertEverywhere a (bs.erase a)).map (fun l => b :: l)
      exact List.mem_cons_of_mem _ (List.mem_map_of_mem _ (ih ha))

theorem mem_allPerms_of_perm {α : Type} [DecidableEq α] :
    ∀ (l0 l : List α), l.Perm l0 → l ∈ allPerms l0 := by
  intro l0
  induction l0 with
  | nil => intro l h; simp [allPerms, h.eq_nil]
  | cons a as ih =>
    intro l h
    have hmem : a ∈ l := h.mem_iff.mpr (List.mem_cons_self a as)
    have hperm : List.Perm (l.erase a) as :=
      ((List.perm_cons_erase hmem).symm.trans h).cons_inv
    have herase : l.erase a ∈ allPerms as := ih (l.erase a) hperm
    show l ∈ ((allPerms as).map (insertEverywhere a)).flatten
    exact List.mem_flatten.mpr
      ⟨insertEverywhere a (l.erase a), List.mem_map_of_mem _ herase,
       mem_insertEverywhere_self a l hmem⟩

/-! ## Claims C2 and C3 -/

/-- The four basic rules of claim C2, with explicit orders 4, 3, 2, 1. -/
def c2rules : List CRule :=
  [⟨"ruleFirst", [], ["/d1"], some 4, none⟩,
   ⟨"ruleSecond", [], ["/d2"], some 3, none⟩,
   ⟨"ruleThree", [], ["/d3"], some 2, none⟩,
   ⟨"ruleFour", [], ["/d4"], some 1, none⟩]

/-- The number of basic rules without an explicit order among the first
`i + 1` rules (the auto-increment count after the `i`-th rule is assigned). -/
def autoCnt (rules : List CRule) (i : Nat) : Int :=
  (((rules.take (i + 1)).filter (fun r => r.order = none)).length : Int)

/-- The value of `max_user_dorder` after core.py:365-366: the maximum explicit
order among the basic rules, or 0 if there is none. -/
def basicFloor (rules : List CRule) : Int :=
  (maxUser none rules).getD 0

/-- All explicit orders declared in a rule set, in declaration order. -/
def declaredOrders (rules : List CRule) : List Int :=
  rules.filterMap (fun r => r.order)

/-- The execution-order key assigned to the first basic or foreach-rule node
with the given name in a program level (iteration nodes have none). -/
def keyOfTop (name : String) : List PNode → Option Int
  | [] => none
  | PNode.basic n _ _ d :: rest => if n = name then some d else keyOfTop name rest
  | PNode.leaf n _ _ d :: rest => if n = name then some d else keyOfTop name rest
  | PNode.iter _ _ _ :: rest => keyOfTop name rest

theorem toBasics_eq_map (rs : List CRule) (h : ∀ r ∈ rs, r.each = none) :
    toBasics rs = rs.map (fun r => (⟨r.name, r.src, r.dests, r.order⟩ : BRec)) := by
  induction rs with
  | nil => rfl
  | cons r rest ih =>
    have hr : r.each = none := h r (List.mem_cons_self r rest)
    have hrest := ih (fun x hx => h x (List.mem_cons_of_mem _ hx))
    simp [toBasics, List.filterMap_cons, hr] at hrest ⊢
    exact hrest

theorem autoAssign_get? (bs : List BRec) :
    ∀ (m : Int) (i : Nat) (b : BRec), bs.get? i = some b → b.dorder = none →
      (autoAssign m bs).1.get? i = some (PNode.basic b.name b.src b.dst
        (m + (((bs.take (i + 1)).filter (fun x => x.dorder = none)).length : Int))) := by
  induction bs with
  | nil => intro m i b hget; simp at hget
  | cons c cs ih =>
    intro m i b hget hord
    cases i with
    | zero =>
      have hb : c = b := by simpa using hget
      subst hb
      rcases hrec : autoAssign (m + 1) cs with ⟨rest, m2⟩
      have heq : autoAssign m (c :: cs) =
          (PNode.basic c.name c.src c.dst (m + 1) :: rest, m2) := by
        simp [autoAssign, hord, hrec]
      rw [heq]
      have hcnt : ((List.take (0 + 1) (c :: cs)).filter
          (fun x => decide (x.dorder = none))).length = 1 := by
        simp [List.take_succ_cons, List.filter_cons, hord]
      rw [hcnt]
      norm_num
    | succ i =>
      have hget2 : cs.get? i = some b := by simpa using hget
      cases hcord : c.dorder with
      | none =>
        rcases hrec : autoAssign (m + 1) cs with ⟨rest, m2⟩
        have heq : autoAssign m (c :: cs) =
            (PNode.basic c.name c.src c.dst (m + 1) :: rest, m2) := by
          simp [autoAssign, hcord, hrec]
        have hih := ih (m + 1) i b hget2 hord
        rw [hrec] at hih
        rw [heq]
        show (PNode.basic c.name c.src c.dst (m + 1) :: rest).get? (i + 1) = _
        rw [List.get?_cons_succ]
        have hcnt : ((List.take (i + 1 + 1) (c :: cs)).filter
            (fun x => decide (x.dorder = none))).length =
            ((List.take (i + 1) cs).filter (fun x => decide (x.dorder = none))).length + 1 := by
          rw [List.take_succ_cons, List.filter_cons]
          simp [hcord, Nat.add_comm]
        rw [hcnt]
        have harg : m + 1 +
            ((((List.take (i + 1) cs).filter (fun x => decide (x.dorder = none))).length : Nat) : Int) =
            m + (((((List.take (i + 1) cs).filter
              (fun x => decide (x.dorder = none))).length + 1 : Nat)) : Int) := by
          push_cast
          ring
        rw [harg] at hih
        exact hih
      | some o =>
        rcases hrec : autoAssign m cs with ⟨rest, m2⟩
        have heq : autoAssign m (c :: cs) =
            (PNode.basic c.name c.src c.dst o :: rest, m2) := by
          simp [autoAssign, hcord, hrec]
        have hih := ih m i b hget2 hord
        rw [hrec] at hih
        rw [heq]
        show (PNode.basic c.name c.src c.dst o :: rest).get? (i + 1) = _
        rw [List.get?_cons_succ]
        have hcnt : ((List.take (i + 1 + 1) (c :: cs)).filter
            (fun x => decide (x.dorder = none))).length =
            ((List.take (i + 1) cs).filter (fun x => decide (x.dorder = none))).length := by
          rw [List.take_succ_cons, List.filter_cons]
          simp [hcord]
        rw [hcnt]
        exact hih

theorem updMax_some_le (m : Int) (u : Option Int) :
    ∃ k, updMax (some m) u = some k ∧ m ≤ k := by
  cases u with
  | none => exact ⟨m, rfl, le_refl m⟩
  | some x =>
    by_cases hx : x > m
    · exact ⟨x, by simp [updMax, hx], le_of_lt hx⟩
    · exact ⟨m, by simp [updMax, hx], le_refl m⟩

theorem updMax_user_le (mx : Option Int) (o : Int) :
    ∃ k, updMax mx (some o) = some k ∧ o ≤ k := by
  cases mx with
  | none => exact ⟨o, rfl, le_refl o⟩
  | some m =>
    by_cases hx : o > m
    · exact ⟨o, by simp [updMax, hx], le_refl o⟩
    · exact ⟨m, by simp [updMax, hx], le_of_not_lt hx⟩

theorem maxUser_mono (rs : List CRule) :
    ∀ m : Int, ∃ k, maxUser (some m) rs = some k ∧ m ≤ k := by
  induction rs with
  | nil => intro m; exact ⟨m, rfl, le_refl m⟩
  | cons r rest ih =>
    intro m
    by_cases hr : r.each.isSome
    · obtain ⟨k, hk, hle⟩ := ih m
      exact ⟨k, by simp [maxUser, hr, hk], hle⟩
    · obtain ⟨k1, hk1, hle1⟩ := updMax_some_le m r.order
      obtain ⟨k2, hk2, hle2⟩ := ih k1
      refine ⟨k2, ?_, le_trans hle1 hle2⟩
      simp [maxUser, hr, hk1, hk2]

theorem maxUser_ge_declared (rs : List CRule) (h : ∀ r ∈ rs, r.each = none) :
    ∀ (mx : Option Int) (o : Int), o ∈ declaredOrders rs →
      ∃ k, maxUser mx rs = some k ∧ o ≤ k := by
  induction rs with
  | nil => intro mx o ho; simp [declaredOrders] at ho
  | cons r rest ih =>
    intro mx o ho
    have hr : r.each = none := h r (List.mem_cons_self r rest)
    have hrs : r.each.isSome = false := by simp [hr]
    have hrest := ih (fun x hx => h x (List.mem_cons_of_mem _ hx))
    cases hord : r.order with
    | none =>
      have ho2 : o ∈ declaredOrders rest := by
        simpa [declaredOrders, List.filterMap_cons, hord] using ho
      obtain ⟨k, hk, hle⟩ := hrest (updMax mx r.order) o ho2
      exact ⟨k, by simp [maxUser, hrs, hk], hle⟩
    | some u =>
      have ho2 : o = u ∨ o ∈ declaredOrders rest := by
        simpa [declaredOrders, List.filterMap_cons, hord] using ho
      rcases ho2 with rfl | ho2
      · obtain ⟨k1, hk1, hle1⟩ := updMax_user_le mx o
        obtain ⟨k2, hk2, hle2⟩ := maxUser_mono rest k1
        refine ⟨k2, ?_, le_trans hle1 hle2⟩
        simp [maxUser, hrs, hord, hk1, hk2]
      · obtain ⟨k, hk, hle⟩ := hrest (updMax mx r.order) o ho2
        exact ⟨k, by simp [maxUser, hrs, hk], hle⟩

theorem basicFloor_ge (rs : List CRule) (h : ∀ r ∈ rs, r.each = none) :
    ∀ o ∈ declaredOrders rs, o ≤ basicFloor rs := by
  intro o ho
  obtain ⟨k, hk, hle⟩ := maxUser_ge_declared rs h none o ho
  simpa [basicFloor, hk] using hle

theorem classify_basic_only (rs : List CRule) (h : ∀ r ∈ rs, r.each = none) :
    classify_rules rs = Except.ok (autoAssign (basicFloor rs) (toBasics rs)).1 := by
  have hany : rs.any (fun r => r.each.isSome) = false := by
    simp only [List.any_eq_false]
    intro r hr
    simp [h r hr]
  rcases hrec : autoAssign ((maxUser none rs).getD 0) (toBasics rs) with ⟨cl, m1⟩
  simp [classify_rules, hany, hrec, basicFloor]

/-- The claim-C2 counterexample rules: `ruleA` is basic with no explicit
order; `ruleB` is a foreach rule with explicit order 100 (which core.py:383
and core.py:417 never read, since they look up the absent key `'dorder'`). -/
def c2cexA : CRule := ⟨"ruleA", [], ["/y"], none, none⟩

/-- See `c2cexA`. -/
def c2cexB : CRule := ⟨"ruleB", [], ["/x/y"], some 100, some [("/a", "/x")]⟩

/-- Claim C2, counterexample: the general sentence — every rule without an
explicit order receives an auto-incremented key strictly greater than the
highest explicit order seen — is false: in the rule set `[c2cexA, c2cexB]`,
`ruleA` (no explicit order) receives key 1, while the declared explicit order
100 of the foreach rule `ruleB` is never seen by the classifier (its lookup
reads the absent key `'dorder'`), and `100 < 1` fails. -/
theorem ruledxml_C2_counterexample :
    ¬ (∀ (rules : List CRule) (r : CRule), r ∈ rules → r.order = none →
        ∀ (prog : List PNode) (k : Int), classify_rules rules = Except.ok prog →
          keyOfTop r.name prog = some k →
          ∀ o ∈ declaredOrders rules, o < k) := by
  intro h
  have h1 := h [c2cexA, c2cexB] c2cexA (List.mem_cons_self _ _) rfl
    [PNode.basic "ruleA" [] ["/y"] 1,
     PNode.iter "/a" "/x" (PForest.cons (PNode.leaf "ruleB" [] ["/x/y"] 3) PForest.nil)]
    1 (by decide) (by decide) 100 (by decide)
  exact absurd h1 (by decide)

/-- Claim C2, amended: (1) for the four basic rules `ruleFirst..ruleFour`
with explicit orders 4, 3, 2, 1, in any declaration order, classification
followed by reordering executes `ruleFour, ruleThree, ruleSecond, ruleFirst`;
(2) in a rule set of basic rules, every rule without an explicit order
receives the key `basicFloor + autoCnt` — the maximum explicit order (0 if
none) plus the count of order-less rules up to and including it, i.e. keys are
auto-incremented in declaration-encounter order — which is strictly greater
than every declared explicit order.  (Foreach rules are excluded: their
explicit orders are read from a metadata key that is never set, so they always
receive auto-assigned keys, as the counterexample shows.) -/
theorem ruledxml_C2_amended :
    (∀ rs : List CRule, rs.Perm c2rules →
        (ordered_rules rs).map progNames =
          Except.ok ["ruleFour", "ruleThree", "ruleSecond", "ruleFirst"])
    ∧ (∀ rs : List CRule, (∀ r ∈ rs, r.each = none) →
        ∀ (i : Nat) (r : CRule), rs.get? i = some r → r.order = none →
          (classify_rules rs).map (fun p => p.get? i) =
              Except.ok (some (PNode.basic r.name r.src r.dests
                (basicFloor rs + autoCnt rs i)))
            ∧ 1 ≤ autoCnt rs i
            ∧ ∀ o ∈ declaredOrders rs, o < basicFloor rs + autoCnt rs i) := by
  constructor
  · intro rs h
    have hmem := mem_allPerms_of_perm c2rules rs h
    have hall : ∀ x ∈ allPerms c2rules,
        (ordered_rules x).map progNames =
          Except.ok ["ruleFour", "ruleThree", "ruleSecond", "ruleFirst"] := by decide
    exact hall rs hmem
  · intro rs hb i r hget hord
    have hclass := classify_basic_only rs hb
    have hmap := toBasics_eq_map rs hb
    have hbget : (toBasics rs).get? i = some ⟨r.name, r.src, r.dests, r.order⟩ := by
      rw [hmap, List.get?_map, hget]
      rfl
    have hkey := autoAssign_get? (toBasics rs) (basicFloor rs) i
      ⟨r.name, r.src, r.dests, r.order⟩ hbget (by simpa using hord)
    have hcnt : ((((toBasics rs).take (i + 1)).filter
        (fun x => decide (x.dorder = none))).length : Int) = autoCnt rs i := by
      rw [hmap, ← List.map_take, List.map_filter, List.length_map]
      rfl
    have hmemtake : r ∈ rs.take (i + 1) := by
      have htake : (rs.take (i + 1)).get? i = some r := by
        rw [List.get?_take (by omega)]
        exact hget
      exact List.get?_mem htake
    have hmemfil : r ∈ (rs.take (i + 1)).filter (fun x => decide (x.order = none)) :=
      List.mem_filter.mpr ⟨hmemtake, by simp [hord]⟩
    have hpos : 0 < ((rs.take (i + 1)).filter (fun x => decide (x.order = none))).length :=
      List.length_pos.mpr (List.ne_nil_of_mem hmemfil)
    have hcnt1 : 1 ≤ autoCnt rs i := by
      have : (1 : Int) ≤
          (((rs.take (i + 1)).filter (fun x => decide (x.order = none))).length : Int) := by
        exact_mod_cast hpos
      simpa [autoCnt] using this
    refine ⟨?_, hcnt1, ?_⟩
    · rw [hclass]
      show Except.ok ((autoAssign (basicFloor rs) (toBasics rs)).1.get? i) = _
      rw [hkey, hcnt]
    · intro o ho
      have hle : o ≤ basicFloor rs := basicFloor_ge rs hb o ho
      omega

/-- The concrete basic-rule set of the C2 witness: `ruleA` with explicit
order 5, `ruleB` without an order (so `ruleB` must receive key 6). -/
def c2wit : List CRule :=
  [⟨"ruleA", [], ["/d"], some 5, none⟩, ⟨"ruleB", [], ["/e"], none, none⟩]

/-- Witness for `ruledxml_C2_amended`, at the declared order of `c2rules` and
at `c2wit` with `i = 1`. -/
theorem ruledxml_C2_amended_witness :
    (ordered_rules c2rules).map progNames =
        Except.ok ["ruleFour", "ruleThree", "ruleSecond", "ruleFirst"]
    ∧ ((classify_rules c2wit).map (fun p => p.get? 1) =
          Except.ok (some (PNode.basic "ruleB" [] ["/e"] (basicFloor c2wit + autoCnt c2wit 1)))
        ∧ 1 ≤ autoCnt c2wit 1
        ∧ (5 : Int) < basicFloor c2wit + autoCnt c2wit 1) := by
  refine ⟨ruledxml_C2_amended.1 c2rules (List.Perm.refl _), ?_⟩
  have h := ruledxml_C2_amended.2 c2wit (by decide) 1
    ⟨"ruleB", [], ["/e"], none, none⟩ (by decide) rfl
  exact ⟨h.1, h.2.1, h.2.2 5 (by decide)⟩

/-- The first foreach chain of claim C3. -/
def c3chain1 : List (String × String) := [("a", "x"), ("ab", "xy")]

/-- The second foreach chain of claim C3. -/
def c3chain2 : List (String × String) := [("a", "x"), ("ac", "xz")]

/-- The forest claim C3 expects: one root for base `a` with exactly the two
childless children `ab` and `ac`, each base pair occurring once. -/
def c3expected : PForest :=
  PForest.cons (PNode.iter "a" "x"
    (PForest.cons (PNode.iter "ab" "xy" PForest.nil)
      (PForest.cons (PNode.iter "ac" "xz" PForest.nil) PForest.nil))) PForest.nil

/-- Claim C3: two foreach rules with base chains `[('a','x'),('ab','xy')]`
and `[('a','x'),('ac','xz')]` — in either declaration order, and with the
shared pair `('a','x')` declared by both — build exactly one root iteration
node for `('a','x')` whose children are exactly the childless nodes for
`('ab','xy')` and `('ac','xz')`. -/
theorem ruledxml_C3 (r1 r2 : FRec) (h1 : r1.foreach = c3chain1)
    (h2 : r2.foreach = c3chain2) (rules : List FRec)
    (hr : rules = [r1, r2] ∨ rules = [r2, r1]) :
    build_recursive_structure rules = c3expected := by
  rcases hr with rfl | rfl
  · show buildFromBases (([r1, r2].map (fun r => r.foreach)).flatten) = c3expected
    rw [show ([r1, r2].map (fun r => r.foreach)).flatten = c3chain1 ++ c3chain2 by
      simp [h1, h2]]
    decide
  · show buildFromBases (([r2, r1].map (fun r => r.foreach)).flatten) = c3expected
    rw [show ([r2, r1].map (fun r => r.foreach)).flatten = c3chain2 ++ c3chain1 by
      simp [h1, h2]]
    decide

/-- The two foreach-rule records of the docstring example at core.py:263-288
(the C3 witness). -/
def c3w1 : FRec := ⟨c3chain1, ["1", "a2", "ab3", "ab4"], ["xy5"], 0⟩

/-- See `c3w1`. -/
def c3w2 : FRec := ⟨c3chain2, ["6"], ["xz7"], 0⟩

/-- Witness for `ruledxml_C3`: the docstring example of
`build_recursive_structure` evaluates to the claimed forest. -/
theorem ruledxml_C3_witness :
    build_recursive_structure [c3w1, c3w2] = c3expected :=
  ruledxml_C3 c3w1 c3w2 rfl rfl [c3w1, c3w2] (Or.inl rfl)

/-! ## Namespace-table normalization (core.py:175-194, claim C9) -/

/-- The predefined XML namespace URI (core.py:177). -/
def XML_NS : String := "http://www.w3.org/XML/1998/namespace"

/-- core.py:179-194 for one of the two binding tables: every `xml` binding is
mapped to the standard URI, every `xmlns` binding is dropped, and the default
global binding is appended.  The `xml_found` flag is initialized `False` and
never set (the loop at core.py:182-188 only logs), so the append at
core.py:193-194 is unconditional. -/
def normalize_xml_namespaces (table : List (String × String × String)) :
    List (String × String × String) :=
  let mapped := table.map (fun e => (e.1, e.2.1, if e.2.1 = "xml" then XML_NS else e.2.2))
  let filtered := mapped.filter (fun e => e.2.1 ≠ "xmlns")
  filtered ++ [("/", "xml", XML_NS)]

/-- Claim C9, counterexample: for the table declaring the global binding
`('/', 'xml', 'http://u')`, normalization yields *two* global `xml` bindings —
the replaced declared one and the appended one — although the claim says the
default binding is synthesized exactly when no `xml` binding was declared. -/
theorem ruledxml_C9_counterexample :
    normalize_xml_namespaces [("/", "xml", "http://u")] =
      [("/", "xml", XML_NS), ("/", "xml", XML_NS)] := by
  decide

/-- Claim C9, amended: after normalization, every binding for prefix `xml`
maps to the standard XML namespace URI regardless of the declared URI, no
binding for prefix `xmlns` remains, and the global binding
`('/', 'xml', XML_NS)` is appended unconditionally at the end — also when an
`xml` binding was declared (the declared-xml flag is never set). -/
theorem ruledxml_C9_amended (table : List (String × String × String)) :
    (∀ b ∈ normalize_xml_namespaces table, b.2.1 = "xml" → b.2.2 = XML_NS)
    ∧ (∀ b ∈ normalize_xml_namespaces table, b.2.1 ≠ "xmlns")
    ∧ (normalize_xml_namespaces table).getLast? = some ("/", "xml", XML_NS) := by
  refine ⟨?_, ?_, ?_⟩
  · intro b hb hxml
    simp only [normalize_xml_namespaces, List.mem_append, List.mem_filter,
      List.mem_map, List.mem_singleton] at hb
    rcases hb with ⟨⟨e, he, rfl⟩, hpred⟩ | rfl
    · simp_all
    · rfl
  · intro b hb
    simp only [normalize_xml_namespaces, List.mem_append, List.mem_filter,
      List.mem_map, List.mem_singleton] at hb
    rcases hb with ⟨⟨e, he, rfl⟩, hpred⟩ | rfl
    · simpa using hpred
    · decide
  · exact List.getLast?_concat _

/-- The table of the C9 witness: an illegal `xmlns` binding and a scoped `xml`
binding with a nonstandard URI. -/
def c9wit : List (String × String × String) :=
  [("/a", "xmlns", "u1"), ("/b", "xml", "u2")]

/-- Witness for `ruledxml_C9_amended`, instantiated at `c9wit` and at the
fixed binding `('/b', 'xml', XML_NS)` it contains after normalization. -/
theorem ruledxml_C9_amended_witness :
    (("/b", "xml", XML_NS) : String × String × String).2.2 = XML_NS
    ∧ (("/b", "xml", XML_NS) : String × String × String).2.1 ≠ "xmlns"
    ∧ (normalize_xml_namespaces c9wit).getLast? = some ("/", "xml", XML_NS) :=
  ⟨(ruledxml_C9_amended c9wit).1 ("/b", "xml", XML_NS) (by decide) rfl,
   (ruledxml_C9_amended c9wit).2.1 ("/b", "xml", XML_NS) (by decide),
   (ruledxml_C9_amended c9wit).2.2⟩

/-! ## Path normalization (core.py:460-530, claim C6) -/

/-- A path segment `(prefix?, local)` as produced by `normalize_path.norm`
(core.py:491-497). -/
abbrev Seg := Option String × String

/-- One segment of `norm` (core.py:492-496): a segment containing `:` not at
position 0 is split into `(prefix, local)`; a segment splitting into more
than two parts is stored by the source as an n-tuple whose later unpacking
raises `ValueError`, modelled as an immediate error. -/
def parseSeg (elem : String) : Except PyErr Seg :=
  if pyContainsChar elem ':' ∧ ¬ pyStartsWith elem ":" then
    match pySplit elem ':' with
    | [a, b] => Except.ok (some a, b)
    | _ => Except.error PyErr.valueError
  else Except.ok (none, elem)

/-- Parse every segment. -/
def parseSegs : List String → Except PyErr (List Seg)
  | [] => Except.ok []
  | e :: es => do
    let s ← parseSeg e
    let rest ← parseSegs es
    pure (s :: rest)

/-- `norm(p)` (core.py:471-498): split off the attribute part at `@`, split
the element part on `/` dropping empty segments, parse the segments, and parse
the attribute (at most two `:`-separated parts, asserted at core.py:478). -/
def norm (p : String) : Except PyErr (List Seg × Option Seg) := do
  let parts := pySplit p '@'
  let base := parts.headD ""
  let elements := (pySplit base '/').filter (fun s => s ≠ "")
  let attr ← match parts.tail with
    | [] => pure (none : Option Seg)
    | a :: _ =>
      match pySplit a ':' with
      | [x] => pure (some ((none : Option String), x))
      | [x, y] => pure (some (some x, y))
      | _ => Except.error (PyErr.assertionError "Only one namespace allowed in attributes")
  let segs ← parseSegs elements
  pure (segs, attr)

/-- Insert a binding into the prefix map with Python-dict semantics (existing
key overwritten, insertion order otherwise kept). -/
def insertMap (m : List (String × String)) (k v : String) : List (String × String) :=
  if m.any (fun e => e.1 = k) then m.map (fun e => if e.1 = k then (k, v) else e)
  else m ++ [(k, v)]

/-- Dict lookup in the prefix map. -/
def lookupMap (m : List (String × String)) (k : String) : Option String :=
  (m.find? (fun e => e.1 = k)).map (fun e => e.2)

/-- core.py:502-506: a binding applies when its normalized path is a leading
segment prefix of the base (`base[0:len(ref)] == ref`); later bindings
overwrite earlier ones per prefix. -/
def buildXmlMap (base : List Seg) (m : List (String × String)) :
    List (String × String × String) → Except PyErr (List (String × String))
  | [] => pure m
  | (path, name, uri) :: rest => do
    let (ref, _attr) ← norm path
    let m2 := if base.take ref.length = ref then insertMap m name uri else m
    buildXmlMap base m2 rest

/-- `normalize_path` (core.py:460-530): returns the normalized path string
and the applicable prefix map, or the raised exception (an unresolved prefix
raises `InvalidPathException` "Unknown namespace ..."). -/
def normalize_path (xmlpath : String) (xmlns : List (String × String × String)) :
    Except PyErr (String × List (String × String)) :=
  if pyCountChar xmlpath '@' > 1 then
    Except.error (PyErr.assertionError "only one @ symbol allowed in paths")
  else do
    let (base, baseAttr) ← norm xmlpath
    let xmlmap ← buildXmlMap base [] xmlns
    let s ← base.foldlM (fun acc seg =>
      match seg.1 with
      | some ns =>
        match lookupMap xmlmap ns with
        | some uri => pure (acc ++ "/" ++ "\x7b" ++ uri ++ "\x7d" ++ seg.2)
        | none => Except.error (PyErr.unknownNamespace ns xmlpath)
      | none => pure (acc ++ "/" ++ seg.2)) ""
    match baseAttr with
    | none => pure (s, xmlmap)
    | some (some ns, aname) =>
      match lookupMap xmlmap ns with
      | some uri => pure (s ++ "/@" ++ "\x7b" ++ uri ++ "\x7d" ++ aname, xmlmap)
      | none => Except.error (PyErr.unknownAttrNamespace ns xmlpath)
    | some (none, aname) => pure (s ++ "/@" ++ aname, xmlmap)

/-- Claim C6: normalizing `ns0:a/ns0:b` against the single binding
`('/a', 'ns0', 'http://example.org')` raises the unknown-namespace error
instead of producing the qualified name `{http://example.org}b`: the
binding-scope comparison at core.py:505 compares the unprefixed scope segment
`(None, 'a')` against the prefixed path segment `('ns0', 'a')`, never matches,
and leaves the prefix map empty — contradicting the documented behaviour of
the same resolution in `xml.namespaced_name` (xml.py:258-259) and the spec. -/
theorem ruledxml_C6_bug :
    normalize_path "ns0:a/ns0:b" [("/a", "ns0", "http://example.org")] =
      Except.error (PyErr.unknownNamespace "ns0" "ns0:a/ns0:b") := by
  decide

/-! ## Document model and `read_source` (xml.py:556-585, claim C7)

An XML element has a qualified tag, attributes, optional text and ordered
children; the source tree is immutable during a run.  The children list is a
mutually defined `ElemList` so that equality is decidable and every operation
evaluates by kernel reduction. -/

mutual

/-- An element of a document tree. -/
inductive Elem where
  | mk (tag : String) (attrs : List (String × String)) (text : Option String)
      (children : ElemList)
deriving DecidableEq, Repr

/-- An ordered list of elements. -/
inductive ElemList where
  | nil
  | cons (e : Elem) (es : ElemList)
deriving DecidableEq, Repr

end

/-- View an `ElemList` as a `List Elem`. -/
def ElemList.toList : ElemList → List Elem
  | ElemList.nil => []
  | ElemList.cons e es => e :: es.toList

/-- The tag of an element. -/
def Elem.tag : Elem → String
  | Elem.mk t _ _ _ => t

/-- The attributes of an element. -/
def Elem.attrs : Elem → List (String × String)
  | Elem.mk _ a _ _ => a

/-- The text content of an element (`None` when absent). -/
def Elem.text : Elem → Option String
  | Elem.mk _ _ t _ => t

/-- The children of an element, as a list. -/
def Elem.children : Elem → List Elem
  | Elem.mk _ _ _ c => c.toList

/-- One child step of the restricted XPath evaluation: from every matched
element, its children with the given qualified tag, in document order. -/
def xpathStep (es : List Elem) (seg : String) : List Elem :=
  (es.map (fun e => e.children.filter (fun c => c.tag = seg))).flatten

/-- The restricted XPath evaluation behind `dom.xpath(path)` for an element
path (the path grammar of this program: `/elem1/elem2`, no predicates): an
absolute path selects the root when its first segment matches the root tag
and then steps through children; a relative path starts stepping at the
context node. -/
def xpathElements (dom : Elem) (path : String) : List Elem :=
  let segs := (pySplit path '/').filter (fun s => s ≠ "")
  if pyStartsWith path "/" then
    match segs with
    | [] => []
    | s0 :: rest => if dom.tag = s0 then rest.foldl xpathStep [dom] else []
  else segs.foldl xpathStep [dom]

/-- `dom.xpath(path)` for an attribute path `base/@name`: the values of that
attribute on the elements matching the base, for those that carry it. -/
def xpathAttrValues (dom : Elem) (path : String) : List String :=
  let parts := pySplit path '@'
  let base := parts.headD ""
  let aname := parts.tail.headD ""
  (xpathElements dom base).filterMap
    (fun e => (e.attrs.find? (fun p => p.1 = aname)).map (fun p => p.2))

/-- `read_source` (xml.py:556-585): the empty path yields `''`; an attribute
path takes the first attribute value (`val[0] or ''`); an element path takes
the first matched element's text (`or ''`); an empty match list yields `''` in
either branch.  The function is total: no branch raises. -/
def read_source (dom : Elem) (path : String) : String :=
  if path = "" then ""
  else if pyContainsChar path '@' then
    match xpathAttrValues dom path with
    | [] => ""
    | v :: _ => v
  else
    match xpathElements dom path with
    | [] => ""
    | e :: _ => e.text.getD ""

/-- How many nodes (attribute values or elements, per the branch `read_source`
takes) the path matches in the document. -/
def matchCount (dom : Elem) (path : String) : Nat :=
  if pyContainsChar path '@' then (xpathAttrValues dom path).length
  else (xpathElements dom path).length

/-- Claim C7: for every document and every source path matching no node,
`read_source` returns the empty string (and, being total, raises nothing). -/
theorem ruledxml_C7 (dom : Elem) (path : String) (h : matchCount dom path = 0) :
    read_source dom path = "" := by
  unfold matchCount at h
  unfold read_source
  by_cases hp : path = ""
  · simp [hp]
  · rw [if_neg hp]
    by_cases hat : pyContainsChar path '@' = true
    · rw [if_pos hat]
      rw [if_pos hat] at h
      cases hh : xpathAttrValues dom path with
      | nil => rfl
      | cons v vs => rw [hh] at h; simp at h
    · rw [if_neg hat]
      rw [if_neg hat] at h
      cases hh : xpathElements dom path with
      | nil => rfl
      | cons e es => rw [hh] at h; simp at h

/-- The document of the C7 witness: a childless root. -/
def c7dom : Elem := Elem.mk "root" [] none ElemList.nil

/-- Witness for `ruledxml_C7`: `/root/missing` matches nothing in `c7dom` and
reads as the empty string. -/
theorem ruledxml_C7_witness :
    matchCount c7dom "/root/missing" = 0 ∧ read_source c7dom "/root/missing" = "" :=
  ⟨by decide, ruledxml_C7 c7dom "/root/missing" (by decide)⟩

/-! ## `read_ambiguous_element` (xml.py:459-502, claim C10) -/

/-- Python `s.strip(c)` for a one-character argument. -/
def pyStripChar (s : String) (c : Char) : String :=
  String.mk (((s.data.dropWhile (fun x => x = c)).reverse.dropWhile (fun x => x = c)).reverse)

/-- `strip_last_element` (xml.py:50-69): split at the last `/` (everything
before it and the final component); an attribute reference in the final
component raises `InvalidPathException`. -/
def strip_last_element (path : String) : Except PyErr (String × String) :=
  let parts := pySplit path '/'
  let bl :=
    match parts with
    | [] => ("", path)
    | [p] => ("", p)
    | _ => (pyJoin "/" parts.dropLast, parts.getLastD "")
  if pyContainsChar bl.2 '@' then
    Except.error (PyErr.invalidPath
      ("Expected path " ++ path ++ " to refer to an element; refers to attribute"))
  else Except.ok bl

/-- `base_or_first` (xml.py:482-486): the first alternative that is a member
of the active base chain, else the first alternative.  (lxml compares element
identity; elements compare structurally here.) -/
def baseOrFirst (bases : List Elem) (alts : List Elem) : Elem :=
  match alts.find? (fun a => bases.contains a) with
  | some a => a
  | none => alts.headD (Elem.mk "" [] none ElemList.nil)

/-- The segment loop of `traverse` (xml.py:123-143) under the policies of
`read_ambiguous_element`: one match continues, several take `base_or_first`,
and zero matches reach `no_options(pelement, current, xmlns)` (xml.py:137) —
a call with three positional arguments to the two-parameter `cont`
(xml.py:494-495), which raises `TypeError` instead of aborting the
traversal. -/
def traverseWalk (bases : List Elem) (current : Elem) : List String → Except PyErr Elem
  | [] => Except.ok current
  | seg :: rest =>
    match current.children.filter (fun c => c.tag = seg) with
    | [] => Except.error (PyErr.typeErrorCall "no_options")
    | [x] => traverseWalk bases x rest
    | x :: y :: more => traverseWalk bases (baseOrFirst bases (x :: y :: more)) rest

/-- The root step of `traverse` (xml.py:125-131, with `dom` not `None`): the
first segment is consumed when it matches the root tag (exactly or as the
local part of a qualified tag); otherwise the root's children are queried for
it like any other segment. -/
def traverseRead (dom : Elem) (base : String) (bases : List Elem) : Except PyErr Elem :=
  match pySplit (pyStripChar base '/') '/' with
  | [] => Except.ok dom
  | e0 :: rest =>
    if dom.tag = e0 ∨ pyEndsWith dom.tag ("\x7d" ++ e0) then traverseWalk bases dom rest
    else
      match dom.children.filter (fun c => c.tag = e0) with
      | [] => Except.error (PyErr.typeErrorCall "no_options")
      | [x] => traverseWalk bases x rest
      | x :: y :: more => traverseWalk bases (baseOrFirst bases (x :: y :: more)) rest

/-- `read_ambiguous_element` (xml.py:459-502): strip the last path component,
traverse the rest, and return the matching children of the reached element.
An empty final component reaches `dom.xpath('')`, which lxml rejects; an
attribute part in the traversed base makes `return_element` raise.  The
`last_element is None` branch at xml.py:499-500 is unreachable in this
revision: the zero-match policy raises `TypeError` (see `traverseWalk`)
before `traverse` can abort with `None`. -/
def read_ambiguous_element (dom : Elem) (path : String) (bases : List Elem) :
    Except PyErr (List Elem) := do
  let bl ← strip_last_element path
  if bl.2 = "" then Except.error (PyErr.invalidPath "Invalid expression")
  else do
    let parts := pySplit bl.1 '@'
    let el ← traverseRead dom (parts.headD "") bases
    match parts.tail with
    | [] => pure (el.children.filter (fun c => c.tag = bl.2))
    | _ :: _ => Except.error (PyErr.invalidPath
        "Expected reference to element, but attribute reference given")

/-- The document of the C10 failing input: `<root><a/></root>`. -/
def c10dom : Elem :=
  Elem.mk "root" [] none (ElemList.cons (Elem.mk "a" [] none ElemList.nil) ElemList.nil)

/-- Claim C10: on the base path `/root/x/y`, whose non-final segment `x`
matches no child of the root, `read_ambiguous_element` raises `TypeError`
(the three-argument call to the two-parameter `cont`, xml.py:137 vs
xml.py:494) instead of returning the empty list the claim describes. -/
theorem ruledxml_C10_bug :
    read_ambiguous_element c10dom "/root/x/y" [] =
      Except.error (PyErr.typeErrorCall "no_options") := by
  decide

/-! ## The execution engine (core.py:533-597, claims C1 and C8)

The classified nodes executed by `run_rules` carry the rule implementations
(pure functions from the read strings to an optional output).  This revision
of the sources calls every document accessor with an argument list that does
not match the accessor's signature, so each access raises `TypeError`:
* core.py:556 → `xml.read_ambiguous_element(src_dom, srcbase, src_bases,
  xmlmap)` — four positional arguments, three parameters (xml.py:459);
* core.py:568 → `xml.read_base_source(..., xmlmap=xmlmap)` — no such
  parameter (xml.py:373);
* core.py:574 → `xml.write_base_destination(..., xmlmap=xmlmap)` — no such
  parameter (xml.py:323);
* core.py:584 → `xml.read_source(src_dom, source, xmlmap)` — three positional
  arguments, two parameters (xml.py:556);
* core.py:592 → `xml.write_destination(..., xmlmap=xmlmap)` — the parameter
  is named `xmlns` (xml.py:505).
Each such call is modelled as the `TypeError` it raises; everything executed
before it (normalization, the `None`-output checks) is modelled faithfully. -/

/-- A namespace binding table. -/
abbrev NsTable := List (String × String × String)

/-- A node of the classified program as `run_rules` consumes it, with the
implementation attached. -/
inductive RNode where
  | basicrule (name : String) (src : List String) (dst : List String)
      (impl : List String → Option String)
  | foreachRule (name : String) (src : List String) (dst : List String)
      (impl : List String → Option String)
  | iteration (srcbase : String) (dstbase : String) (children : List RNode)

/-- `run_rules.finish_a_tree` (core.py:553-575).  An iteration node normalizes
its source base and then reaches the four-argument call of core.py:556; a
foreach rule with sources reaches the bad keyword call of core.py:568; one
without sources invokes its implementation on no arguments and, per
core.py:571-572, returns the target unchanged when the output is `None` —
otherwise it reaches the bad keyword call of core.py:574.  For a node of class
`basicrule` the Python function has no branch and falls through, returning
`None`. -/
def finish_a_tree (target : Option Elem) (node : RNode) (inNs outNs : NsTable) :
    Except PyErr (Option Elem) :=
  match node with
  | RNode.iteration srcbase _ _ =>
    match normalize_path srcbase inNs with
    | Except.error e => Except.error e
    | Except.ok _ => Except.error (PyErr.typeErrorCall "read_ambiguous_element")
  | RNode.foreachRule _ src dst impl =>
    match src with
    | [] =>
      match impl [] with
      | none => Except.ok target
      | some _ =>
        match dst with
        | [] => Except.error PyErr.indexError
        | d :: _ =>
          match normalize_path d outNs with
          | Except.error e => Except.error e
          | Except.ok _ => Except.error (PyErr.typeErrorCall "write_base_destination")
    | s :: _ =>
      match normalize_path s inNs with
      | Except.error e => Except.error e
      | Except.ok _ => Except.error (PyErr.typeErrorCall "read_base_source")
  | RNode.basicrule _ _ _ _ => Except.ok none

/-- `run_rules` (core.py:533-597).  A basic rule with sources normalizes the
first source and reaches the three-argument call of core.py:584; one without
sources invokes its implementation on no arguments and, per core.py:589-590,
`continue`s (leaving the target untouched) when the output is `None` —
otherwise it normalizes the destination (`obj['dst'][0]`, an `IndexError`
when empty) and reaches the bad keyword call of core.py:592.  Iteration and
foreach nodes go through `finish_a_tree` with empty base chains. -/
def run_rules (srcDom : Elem) (target : Option Elem) (classified : List RNode)
    (inNs outNs : NsTable) : Except PyErr (Option Elem) :=
  match classified with
  | [] => Except.ok target
  | RNode.basicrule _name src dst impl :: rest =>
    match src with
    | [] =>
      match impl [] with
      | none => run_rules srcDom target rest inNs outNs
      | some _ =>
        match dst with
        | [] => Except.error PyErr.indexError
        | d :: _ =>
          match normalize_path d outNs with
          | Except.error e => Except.error e
          | Except.ok _ => Except.error (PyErr.typeErrorCall "write_destination")
    | s :: _ =>
      match normalize_path s inNs with
      | Except.error e => Except.error e
      | Except.ok _ => Except.error (PyErr.typeErrorCall "read_source")
  | node :: rest =>
    match finish_a_tree target node inNs outNs with
    | Except.error e => Except.error e
    | Except.ok t2 => run_rules srcDom t2 rest inNs outNs

/-- One `<element><child>t</child></element>` of the C1 source tree. -/
def c1element (t : String) : Elem :=
  Elem.mk "element" [] none
    (ElemList.cons (Elem.mk "child" [] (some t) ElemList.nil) ElemList.nil)

/-- The C1 source tree: three sibling `<element>` nodes with distinct child
texts under the `<xml>` root. -/
def c1src : Elem :=
  Elem.mk "xml" [] none
    (ElemList.cons (c1element "one")
      (ElemList.cons (c1element "two")
        (ElemList.cons (c1element "three") ElemList.nil)))

/-- The classified program of claim C1: a single foreach rule with base pair
`('/xml/element', '/doc/message')`, reading the child text and writing
`/doc/message/text`. -/
def c1prog : List RNode :=
  [RNode.iteration "/xml/element" "/doc/message"
    [RNode.foreachRule "ruleMessage" ["/xml/element/child"] ["/doc/message/text"]
      (fun args => some (args.headD ""))]]

/-- Claim C1: executing the single-foreach program on the three-element source
tree raises `TypeError` at the first iteration node — core.py:556 passes four
positional arguments to the three-parameter `xml.read_ambiguous_element` —
before any repetition runs, instead of producing the three `<message>`
elements the claim describes. -/
theorem ruledxml_C1_bug :
    run_rules c1src none c1prog [] [] =
      Except.error (PyErr.typeErrorCall "read_ambiguous_element") := by
  decide

/-- The source document of the C8 failing input. -/
def c8dom : Elem :=
  Elem.mk "doc" [] none
    (ElemList.cons (Elem.mk "head" [] (some "title") ElemList.nil) ElemList.nil)

/-- The C8 failing rule: a basic rule with one declared source whose
implementation returns `None` on every input. -/
def c8rule : RNode :=
  RNode.basicrule "ruleHead" ["/doc/head"] ["/out/title"] (fun _ => none)

/-- A basic rule with no declared sources whose implementation returns
`None`. -/
def c8ruleNoSrc : RNode :=
  RNode.basicrule "ruleConst" [] ["/out/title"] (fun _ => none)

/-- Claim C8: executing a basic rule whose implementation returns `None`
raises `TypeError` in the read phase whenever the rule declares a source
(core.py:584 passes three positional arguments to the two-parameter
`xml.read_source`), before the implementation is ever invoked — the claimed
no-op behaviour holds only for rules with no sources, where the `None` check
of core.py:589-590 leaves the destination untouched and raises nothing. -/
theorem ruledxml_C8_bug :
    run_rules c8dom none [c8rule] [] [] = Except.error (PyErr.typeErrorCall "read_source")
    ∧ run_rules c8dom none [c8ruleNoSrc] [] [] = Except.ok none := by
  constructor
  · decide
  · rfl

end RuledXml
